import Mathlib

/-!
Verification of the Game of Life core in `GameOfLife/taichi_game_of_life.py`.

The Python program keeps a double-buffered `2 × 100 × 100` grid of `u8`
cells (`state`), a current-buffer index (`state_idx`), a view state
(`center_x`, `center_y`, `zoom`) and a run state, and drives everything
from a single polling loop.  The definitions below are a shallow
embedding of that code: grids are total functions on `Nat` indices,
machine floats become exact rationals (`ℚ`), the Taichi casts to `i32`
(which truncate toward zero) become `truncQ`, and the Python name error
that can occur in the wheel handler is modelled with `Option`.
-/

namespace GameOfLife

/-- `grid_num = 100` in the source. -/
def gridNum : Nat := 100

/-- `res = (1024, 1024)` in the source. -/
def resW : Nat := 1024

/-- A grid buffer: cell values (`u8` in the source) indexed by row and
column.  Indices `≥ gridNum` are never read by the embedded code. -/
def Grid : Type := Nat → Nat → Nat

/-- The double-buffered automaton state: `state` is indexed by buffer,
row, column, and `idx` is `state_idx[None]`. -/
structure LifeState where
  state : Nat → Nat → Nat → Nat
  idx : Nat

/-- Point update of the 3-dimensional `state` field (one Taichi store). -/
def writeCell (f : Nat → Nat → Nat → Nat) (b i j v : Nat) :
    Nat → Nat → Nat → Nat :=
  fun b' i' j' => if b' = b ∧ i' = i ∧ j' = j then v else f b' i' j'

/-- `init()`: zero both buffers, write the five seed cells around
`center = 50` into buffer 0, and set `state_idx` to 0.  (The frame-buffer
clearing in `init` touches no automaton state and is omitted.) -/
def seedState : LifeState :=
  { state :=
      writeCell
        (writeCell
          (writeCell
            (writeCell
              (writeCell (fun _ _ _ => 0) 0 50 50 1)
              0 49 49 1)
            0 51 50 1)
          0 51 49 1)
        0 50 51 1
    idx := 0 }

/-- One summand of the neighbour count in `update()`: the body of the
statically unrolled `dx, dy` loop, guarded by the bounds check
`0 <= x < grid_num and 0 <= y < grid_num` and the liveness test
`state[cur_state_idx, x, y] == 1`. -/
def nbr (g : Grid) (i j : Nat) (dx dy : ℤ) : Nat :=
  let x : ℤ := (i : ℤ) + dx
  let y : ℤ := (j : ℤ) + dy
  if 0 ≤ x ∧ x < (gridNum : ℤ) ∧ 0 ≤ y ∧ y < (gridNum : ℤ) ∧
      g x.toNat y.toNat = 1 then 1 else 0

/-- The `alive` accumulator of `update()`: the eight unrolled loop
iterations (`dx`, `dy` ranging over `-1, 0, 1` with `(0, 0)` skipped),
in source order. -/
def neighborCount (g : Grid) (i j : Nat) : Nat :=
  nbr g i j (-1) (-1) + nbr g i j (-1) 0 + nbr g i j (-1) 1 +
  nbr g i j 0 (-1) + nbr g i j 0 1 +
  nbr g i j 1 (-1) + nbr g i j 1 0 + nbr g i j 1 1

/-- The per-cell rule body of `update()`: dead cell with exactly 3 live
neighbours is born, live cell with 2 or 3 live neighbours survives,
everything else is dead in the next buffer. -/
def updateCell (g : Grid) (i j : Nat) : Nat :=
  let alive := neighborCount g i j
  if g i j = 0 then
    if alive = 3 then 1 else 0
  else
    if 2 ≤ alive ∧ alive ≤ 3 then 1 else 0

/-- The `update()` kernel: for every in-range cell of the current buffer
(`idx = cur_state_idx`), write the rule's result into the same cell of
the next buffer `nxt_state_idx = 1 - cur_state_idx`; no other location
is written.  `state_idx` itself is untouched by the kernel. -/
def update (s : LifeState) : LifeState :=
  let cur := s.idx
  let nxt := 1 - cur
  { s with
    state := fun b i j =>
      if b = nxt ∧ i < gridNum ∧ j < gridNum then
        updateCell (s.state cur) i j
      else s.state b i j }

/-- One simulation tick of the main loop: `update()` followed by
`state_idx[None] = state_idx[None] ^ 1`. -/
def tick (s : LifeState) : LifeState :=
  let s' := update s
  { s' with idx := Nat.xor s'.idx 1 }

/-! ### Specification-side definitions (written from the spec's words,
for comparison with the embedded code) -/

/-- The Moore neighbourhood of `(i, j)`: the eight horizontally,
vertically and diagonally adjacent coordinate pairs — the 3×3 block
around `(i, j)` with the centre removed. -/
def mooreNbhd (i j : ℤ) : Finset (ℤ × ℤ) :=
  ((Finset.Icc (i - 1) (i + 1)) ×ˢ (Finset.Icc (j - 1) (j + 1))).erase (i, j)

/-- Spec-side neighbour count: the number of Moore neighbours of
`(i, j)` that are in range (both coordinates in `[0, gridNum)`) and
hold a live cell; out-of-range neighbour coordinates contribute
nothing. -/
def specCount (g : Grid) (i j : Nat) : Nat :=
  ((mooreNbhd i j).filter
      (fun p => 0 ≤ p.1 ∧ p.1 < (gridNum : ℤ) ∧ 0 ≤ p.2 ∧
        p.2 < (gridNum : ℤ) ∧ g p.1.toNat p.2.toNat = 1)).card

/-- The B3/S23 rule as the spec states it: a dead cell (value 0) becomes
alive iff the count is exactly 3; a live cell stays alive iff the count
is 2 or 3; otherwise the cell is dead. -/
def lifeRule (cell count : Nat) : Nat :=
  if cell = 0 then
    if count = 3 then 1 else 0
  else
    if count = 2 ∨ count = 3 then 1 else 0

/-- The seed pattern as the spec lists it: five live cells in buffer 0,
everything else dead. -/
def specSeed (b i j : Nat) : Nat :=
  if b = 0 ∧ ((i, j) = (50, 50) ∨ (i, j) = (49, 49) ∨ (i, j) = (51, 50) ∨
      (i, j) = (51, 49) ∨ (i, j) = (50, 51)) then 1 else 0

/-- The hand-computed successor of the seed pattern under B3/S23. -/
def expectedAfterSeed (i j : Nat) : Nat :=
  if (i, j) = (49, 50) ∨ (i, j) = (50, 51) ∨ (i, j) = (51, 49) ∨
      (i, j) = (51, 50) ∨ (i, j) = (51, 51) then 1 else 0

/-! ### Bridging lemmas -/

lemma mooreNbhd_explicit (i j : ℤ) :
    mooreNbhd i j =
      {(i - 1, j - 1), (i - 1, j), (i - 1, j + 1), (i, j - 1), (i, j + 1),
       (i + 1, j - 1), (i + 1, j), (i + 1, j + 1)} := by
  ext p
  obtain ⟨p1, p2⟩ := p
  simp only [mooreNbhd, Finset.mem_erase, Finset.mem_product, Finset.mem_Icc,
    Finset.mem_insert, Finset.mem_singleton, Prod.mk.injEq, ne_eq,
    not_and]
  constructor
  · rintro ⟨hne, ⟨h1, h2⟩, h3, h4⟩
    omega
  · rintro (⟨h1, h2⟩ | ⟨h1, h2⟩ | ⟨h1, h2⟩ | ⟨h1, h2⟩ | ⟨h1, h2⟩ |
      ⟨h1, h2⟩ | ⟨h1, h2⟩ | ⟨h1, h2⟩) <;>
    exact ⟨by omega, ⟨by omega, by omega⟩, by omega, by omega⟩

lemma specCount_eq_neighborCount (g : Grid) (i j : Nat) :
    specCount g i j = neighborCount g i j := by
  have hdist :
      specCount g i j =
        nbr g i j (-1) (-1) + (nbr g i j (-1) 0 + (nbr g i j (-1) 1 +
        (nbr g i j 0 (-1) + (nbr g i j 0 1 +
        (nbr g i j 1 (-1) + (nbr g i j 1 0 + nbr g i j 1 1)))))) := by
    rw [specCount, mooreNbhd_explicit, Finset.card_filter]
    rw [Finset.sum_insert (by
      simp only [Finset.mem_insert, Finset.mem_singleton, Prod.mk.injEq]; omega)]
    rw [Finset.sum_insert (by
      simp only [Finset.mem_insert, Finset.mem_singleton, Prod.mk.injEq]; omega)]
    rw [Finset.sum_insert (by
      simp only [Finset.mem_insert, Finset.mem_singleton, Prod.mk.injEq]; omega)]
    rw [Finset.sum_insert (by
      simp only [Finset.mem_insert, Finset.mem_singleton, Prod.mk.injEq]; omega)]
    rw [Finset.sum_insert (by
      simp only [Finset.mem_insert, Finset.mem_singleton, Prod.mk.injEq]; omega)]
    rw [Finset.sum_insert (by
      simp only [Finset.mem_insert, Finset.mem_singleton, Prod.mk.injEq]; omega)]
    rw [Finset.sum_insert (by
      simp only [Finset.mem_singleton, Prod.mk.injEq]; omega)]
    rw [Finset.sum_singleton]
    simp only [nbr, add_zero]
    rfl
  rw [hdist, neighborCount]
  omega

/-! ### C1 -/

/-- C1: for every in-range cell `(i, j)` of the current buffer,
`update()` writes into the next buffer (index `1 - state_idx`) exactly
the B3/S23 value computed from the number of live cells among the
at-most-8 in-range Moore neighbours of `(i, j)` in the current buffer:
a dead cell becomes alive iff that count is exactly 3, and a live cell
stays alive iff the count is 2 or 3, otherwise the cell becomes dead.
Out-of-range neighbour coordinates contribute nothing to the count (and
the embedded `nbr` only reads the grid under its bounds check). -/
theorem c1_step_follows_rule (s : LifeState) (i j : Nat)
    (hi : i < gridNum) (hj : j < gridNum) :
    (update s).state (1 - s.idx) i j =
      lifeRule (s.state s.idx i j) (specCount (s.state s.idx) i j) := by
  have hw : (update s).state (1 - s.idx) i j = updateCell (s.state s.idx) i j := by
    simp only [update]
    exact if_pos ⟨trivial, hi, hj⟩
  rw [hw, updateCell, lifeRule, specCount_eq_neighborCount]
  rcases Nat.eq_zero_or_pos (s.state s.idx i j) with h0 | hpos
  · simp [h0]
  · have : ¬ s.state s.idx i j = 0 := by omega
    simp only [this, if_false]
    by_cases h23 : 2 ≤ neighborCount (s.state s.idx) i j ∧
        neighborCount (s.state s.idx) i j ≤ 3
    · have : neighborCount (s.state s.idx) i j = 2 ∨
          neighborCount (s.state s.idx) i j = 3 := by omega
      simp [h23, this]
    · have : ¬ (neighborCount (s.state s.idx) i j = 2 ∨
          neighborCount (s.state s.idx) i j = 3) := by omega
      simp [h23, this]

/-- Witness for C1 at the seeded state and cell (49, 50). -/
theorem c1_step_follows_rule_witness :
    (update seedState).state (1 - seedState.idx) 49 50 =
      lifeRule (seedState.state seedState.idx 49 50)
        (specCount (seedState.state seedState.idx) 49 50) :=
  c1_step_follows_rule seedState 49 50 (by decide) (by decide)

/-! ### C2: the seed pattern and its one-step successor -/

/-- The seed's buffer 0, as a plain grid. -/
def seedGrid : Grid := fun i j => specSeed 0 i j

lemma seedState_state_eq (b i j : Nat) :
    seedState.state b i j = specSeed b i j := by
  simp only [seedState, writeCell, specSeed, Prod.mk.injEq]
  split_ifs <;> omega

lemma seedState_buf0 : seedState.state 0 = seedGrid :=
  funext fun i => funext fun j => seedState_state_eq 0 i j

lemma specSeed_far (i j : Nat)
    (h : ¬(49 ≤ i ∧ i ≤ 51 ∧ 49 ≤ j ∧ j ≤ 51)) : specSeed 0 i j = 0 := by
  simp only [specSeed, Prod.mk.injEq]
  exact if_neg (by omega)

lemma nbr_seed_far (i j : Nat) (dx dy : ℤ)
    (hdx : -1 ≤ dx ∧ dx ≤ 1) (hdy : -1 ≤ dy ∧ dy ≤ 1)
    (h : i ≤ 47 ∨ 53 ≤ i ∨ j ≤ 47 ∨ 53 ≤ j) :
    nbr seedGrid i j dx dy = 0 := by
  simp only [nbr]
  apply if_neg
  rintro ⟨h1, h2, h3, h4, h5⟩
  have h0 : specSeed 0 ((↑i + dx).toNat) ((↑j + dy).toNat) = 0 :=
    specSeed_far _ _ (by omega)
  simp only [seedGrid] at h5
  omega

lemma neighborCount_seed_far (i j : Nat)
    (h : i ≤ 47 ∨ 53 ≤ i ∨ j ≤ 47 ∨ 53 ≤ j) :
    neighborCount seedGrid i j = 0 := by
  have h8 : ∀ dx dy : ℤ, -1 ≤ dx ∧ dx ≤ 1 → -1 ≤ dy ∧ dy ≤ 1 →
      nbr seedGrid i j dx dy = 0 :=
    fun dx dy hdx hdy => nbr_seed_far i j dx dy hdx hdy h
  rw [neighborCount,
    h8 (-1) (-1) (by omega) (by omega), h8 (-1) 0 (by omega) (by omega),
    h8 (-1) 1 (by omega) (by omega), h8 0 (-1) (by omega) (by omega),
    h8 0 1 (by omega) (by omega), h8 1 (-1) (by omega) (by omega),
    h8 1 0 (by omega) (by omega), h8 1 1 (by omega) (by omega)]

lemma updateCell_seed_far (i j : Nat)
    (h : ¬(48 ≤ i ∧ i ≤ 52 ∧ 48 ≤ j ∧ j ≤ 52)) :
    updateCell seedGrid i j = 0 := by
  have hc : neighborCount seedGrid i j = 0 := neighborCount_seed_far i j (by omega)
  have h0 : seedGrid i j = 0 := by
    simp only [seedGrid]
    exact specSeed_far i j (by omega)
  simp [updateCell, hc, h0]

lemma expectedAfterSeed_far (i j : Nat)
    (h : ¬(48 ≤ i ∧ i ≤ 52 ∧ 48 ≤ j ∧ j ≤ 52)) :
    expectedAfterSeed i j = 0 := by
  simp only [expectedAfterSeed, Prod.mk.injEq]
  exact if_neg (by omega)

set_option maxRecDepth 10000 in
lemma updateCell_seed_near : ∀ a < 5, ∀ b < 5,
    updateCell seedGrid (48 + a) (48 + b) =
      expectedAfterSeed (48 + a) (48 + b) := by
  decide

/-- C2: `init()` makes buffer 0 current and fills the two buffers with
exactly the five live cells (50,50), (49,49), (51,50), (51,49), (50,51)
of buffer 0, everything else dead; one tick (`update()` followed by the
index flip) then yields, in the new current buffer, exactly the
hand-computed B3/S23 successor of that pattern — the five cells
(49,50), (50,51), (51,49), (51,50), (51,51) — and no other cell is
alive afterwards. -/
theorem c2_seed_and_golden_step :
    seedState.idx = 0 ∧
    (∀ b i j : Nat, seedState.state b i j = specSeed b i j) ∧
    (tick seedState).idx = 1 ∧
    (∀ i j : Nat, i < gridNum → j < gridNum →
      (tick seedState).state (tick seedState).idx i j = expectedAfterSeed i j) := by
  refine ⟨rfl, seedState_state_eq, rfl, ?_⟩
  intro i j hi hj
  have hw : (update seedState).state 1 i j = updateCell seedGrid i j := by
    show (if (1 : Nat) = 1 - seedState.idx ∧ i < gridNum ∧ j < gridNum then
        updateCell (seedState.state seedState.idx) i j
      else seedState.state 1 i j) = updateCell seedGrid i j
    rw [if_pos ⟨rfl, hi, hj⟩,
      show seedState.state seedState.idx = seedGrid from seedState_buf0]
  have hgoal : (tick seedState).state (tick seedState).idx i j =
      (update seedState).state 1 i j := rfl
  rw [hgoal, hw]
  by_cases hnear : 48 ≤ i ∧ i ≤ 52 ∧ 48 ≤ j ∧ j ≤ 52
  · obtain ⟨h1, h2, h3, h4⟩ := hnear
    have hn := updateCell_seed_near (i - 48) (by omega) (j - 48) (by omega)
    rw [show 48 + (i - 48) = i by omega, show 48 + (j - 48) = j by omega] at hn
    exact hn
  · rw [updateCell_seed_far i j hnear, expectedAfterSeed_far i j hnear]

/-- Witness for C2 (its universally quantified part) at cell (51, 51). -/
theorem c2_seed_and_golden_step_witness :
    (tick seedState).state (tick seedState).idx 51 51 = expectedAfterSeed 51 51 :=
  c2_seed_and_golden_step.2.2.2 51 51 (by decide) (by decide)

/-! ### C3: the step kernel only writes the next buffer -/

lemma nbr_congr (g g' : Grid) (i j : Nat) (dx dy : ℤ)
    (hg : ∀ a b : Nat, a < gridNum → b < gridNum → g a b = g' a b) :
    nbr g i j dx dy = nbr g' i j dx dy := by
  simp only [nbr]
  by_cases hb : 0 ≤ (i : ℤ) + dx ∧ (i : ℤ) + dx < (gridNum : ℤ) ∧
      0 ≤ (j : ℤ) + dy ∧ (j : ℤ) + dy < (gridNum : ℤ)
  · rw [hg ((i : ℤ) + dx).toNat ((j : ℤ) + dy).toNat (by omega) (by omega)]
  · rw [if_neg (fun hc => hb ⟨hc.1, hc.2.1, hc.2.2.1, hc.2.2.2.1⟩),
      if_neg (fun hc => hb ⟨hc.1, hc.2.1, hc.2.2.1, hc.2.2.2.1⟩)]

lemma neighborCount_congr (g g' : Grid) (i j : Nat)
    (hg : ∀ a b : Nat, a < gridNum → b < gridNum → g a b = g' a b) :
    neighborCount g i j = neighborCount g' i j := by
  rw [neighborCount, neighborCount,
    nbr_congr g g' i j (-1) (-1) hg, nbr_congr g g' i j (-1) 0 hg,
    nbr_congr g g' i j (-1) 1 hg, nbr_congr g g' i j 0 (-1) hg,
    nbr_congr g g' i j 0 1 hg, nbr_congr g g' i j 1 (-1) hg,
    nbr_congr g g' i j 1 0 hg, nbr_congr g g' i j 1 1 hg]

lemma updateCell_congr (g g' : Grid) (i j : Nat)
    (hg : ∀ a b : Nat, a < gridNum → b < gridNum → g a b = g' a b)
    (hi : i < gridNum) (hj : j < gridNum) :
    updateCell g i j = updateCell g' i j := by
  simp only [updateCell]
  rw [neighborCount_congr g g' i j hg, hg i j hi hj]

/-- C3: the `update()` kernel never writes the current buffer (nor any
location outside the in-range part of the next buffer), so every cell
of the current buffer is unchanged; consequently two states whose
current buffers agree on the 100×100 range — whatever their next
buffers hold — get identical next-buffer contents; and the
current-buffer index is flipped only afterwards, by the main loop
(`update()` itself leaves `state_idx` untouched, and `tick` is exactly
`update()` followed by the xor flip of the index). -/
theorem c3_step_writes_only_next (s s₂ : LifeState) :
    (∀ b i j : Nat, b ≠ 1 - s.idx ∨ ¬(i < gridNum ∧ j < gridNum) →
      (update s).state b i j = s.state b i j) ∧
    (∀ i j : Nat, (update s).state s.idx i j = s.state s.idx i j) ∧
    ((∀ i j : Nat, i < gridNum → j < gridNum →
        s.state s.idx i j = s₂.state s₂.idx i j) →
      ∀ i j : Nat, i < gridNum → j < gridNum →
        (update s).state (1 - s.idx) i j = (update s₂).state (1 - s₂.idx) i j) ∧
    (update s).idx = s.idx ∧
    (tick s).idx = Nat.xor s.idx 1 ∧
    (∀ b i j : Nat, (tick s).state b i j = (update s).state b i j) := by
  have hframe : ∀ b i j : Nat, b ≠ 1 - s.idx ∨ ¬(i < gridNum ∧ j < gridNum) →
      (update s).state b i j = s.state b i j := by
    intro b i j hb
    simp only [update]
    apply if_neg
    rintro ⟨h1, h2, h3⟩
    rcases hb with hb | hb
    · exact hb h1
    · exact hb ⟨h2, h3⟩
  refine ⟨hframe, ?_, ?_, rfl, rfl, fun b i j => rfl⟩
  · intro i j
    exact hframe s.idx i j (Or.inl (by omega))
  · intro hcur i j hi hj
    have hw1 : (update s).state (1 - s.idx) i j =
        updateCell (s.state s.idx) i j := by
      simp only [update]
      exact if_pos ⟨trivial, hi, hj⟩
    have hw2 : (update s₂).state (1 - s₂.idx) i j =
        updateCell (s₂.state s₂.idx) i j := by
      simp only [update]
      exact if_pos ⟨trivial, hi, hj⟩
    rw [hw1, hw2]
    exact updateCell_congr _ _ i j hcur hi hj

/-- A state whose current buffer is the seed's but whose next buffer
holds junk values. -/
def junkNext : LifeState :=
  { state := fun b i j => if b = 1 then 5 else seedState.state b i j
    idx := 0 }

/-- Witness for C3: at the seeded state versus a state with a scribbled
next buffer, the frame and determinism conclusions hold at concrete
cells. -/
theorem c3_step_writes_only_next_witness :
    (update seedState).state 0 7 7 = seedState.state 0 7 7 ∧
    (update seedState).state 1 50 50 = (update junkNext).state 1 50 50 := by
  constructor
  · exact (c3_step_writes_only_next seedState junkNext).2.1 7 7
  · exact (c3_step_writes_only_next seedState junkNext).2.2.1
      (fun i j hi hj => rfl) 50 50 (by decide) (by decide)

/-! ### View-transform and interaction model

Floating-point quantities of the source (`zoom`, `center_x`, `center_y`,
mouse positions, world and grid coordinates) are modelled as exact
rationals.  `ti.cast(·, ti.i32)` and Python's `int(·)` truncate toward
zero, which `truncQ` reproduces. -/

/-- `zoom_rate = 1.2`. -/
def zoomRate : ℚ := 6 / 5

/-- The zoom floor `0.7` of the wheel handler. -/
def zoomFloor : ℚ := 7 / 10

/-- `grid_size = 20.0`. -/
def gridSize : ℚ := 20

/-- `border_thickness = 0.05`. -/
def borderThickness : ℚ := 1 / 20

/-- Truncation toward zero, as performed by `ti.cast(x, ti.i32)` and
Python's `int(x)`. -/
def truncQ (x : ℚ) : ℤ := Int.tdiv x.num (x.den : ℤ)

lemma truncQ_eq_floor (x : ℚ) (h : 0 ≤ x) : truncQ x = ⌊x⌋ := by
  rw [truncQ, Int.tdiv_eq_ediv (Rat.num_nonneg.mpr h) (by positivity)]
  conv_rhs => rw [← Rat.num_div_den x]
  rw [Rat.floor_intCast_div_natCast]

lemma truncQ_eq (x : ℚ) (n : ℤ) (h0 : 0 ≤ x) (h1 : (n : ℚ) ≤ x)
    (h2 : x < n + 1) : truncQ x = n := by
  rw [truncQ_eq_floor x h0]
  rw [Int.floor_eq_iff]
  · exact ⟨h1, by exact_mod_cast h2⟩

/-! #### Wheel (scroll-to-zoom) handler: C4, C7, C9 -/

/-- The globals the WHEEL branch of the main loop touches: `zoom`,
`center_x`, `center_y`, and the binding state of the Python global
`zoom_new` (`none` models "never assigned yet"). -/
structure WheelState where
  zoom : ℚ
  panx : ℚ
  pany : ℚ
  zoomNew : Option ℚ

/-- The state at program start: `zoom = 1.0`, `center = (0, 0)`,
`zoom_new` unbound. -/
def wheelInit : WheelState := { zoom := 1, panx := 0, pany := 0, zoomNew := none }

/-- The WHEEL branch of the event loop.  With a positive vertical delta
`zoom_new = zoom * zoom_rate`; negative: `zoom_new = zoom / zoom_rate`;
zero: `zoom_new` keeps its previous binding, and if it was never bound
the line `if zoom_new < 0.7` raises `NameError` (modelled by `none`).
A resulting zoom below the floor hits `continue` (no zoom/pan change);
otherwise the pan is adjusted and the new zoom installed. -/
def wheelEvent (s : WheelState) (mx my : ℚ) (dy : ℤ) : Option WheelState :=
  let zn? : Option ℚ :=
    if 0 < dy then some (s.zoom * zoomRate)
    else if dy < 0 then some (s.zoom / zoomRate)
    else s.zoomNew
  zn?.map fun zn =>
    if zn < zoomFloor then { s with zoomNew := some zn }
    else
      { zoom := zn
        panx := s.panx + (mx - 1 / 2) * 1024 * (1 / s.zoom - 1 / zn)
        pany := s.pany + (my - 1 / 2) * 1024 * (1 / s.zoom - 1 / zn)
        zoomNew := some zn }

/-- A scroll event: cursor position (normalized, from
`gui.get_cursor_pos()`) and vertical wheel delta. -/
structure ScrollEv where
  mx : ℚ
  my : ℚ
  dy : ℤ

/-- One queue entry of the event loop's wheel processing: a dead loop
(`none`) stays dead, otherwise the wheel branch runs. -/
def wheelStep (os : Option WheelState) (e : ScrollEv) : Option WheelState :=
  os.bind fun s => wheelEvent s e.mx e.my e.dy

/-- Folding a whole queue of scroll events from the initial state;
`none` means the Python loop died with `NameError`. -/
def runWheel (evs : List ScrollEv) : Option WheelState :=
  evs.foldl wheelStep (some wheelInit)

lemma wheelEvent_floor (s s' : WheelState) (mx my : ℚ) (dy : ℤ)
    (hz : zoomFloor ≤ s.zoom) (h : wheelEvent s mx my dy = some s') :
    zoomFloor ≤ s'.zoom := by
  rcases hzn : (if 0 < dy then some (s.zoom * zoomRate)
      else if dy < 0 then some (s.zoom / zoomRate) else s.zoomNew) with _ | zn
  · simp only [wheelEvent] at h
    rw [hzn, Option.map_none'] at h
    exact absurd h (by simp)
  · simp only [wheelEvent] at h
    rw [hzn, Option.map_some', Option.some.injEq] at h
    by_cases hlt : zn < zoomFloor
    · rw [if_pos hlt] at h
      rw [← h]
      exact hz
    · rw [if_neg hlt] at h
      rw [← h]
      exact le_of_not_lt hlt

lemma foldl_wheel_none (evs : List ScrollEv) :
    evs.foldl wheelStep none = none := by
  induction evs with
  | nil => rfl
  | cons e evs ih =>
      rw [List.foldl_cons]
      exact ih

lemma runWheel_from_floor (evs : List ScrollEv) :
    ∀ s : WheelState, zoomFloor ≤ s.zoom → ∀ s',
      evs.foldl wheelStep (some s) = some s' → zoomFloor ≤ s'.zoom := by
  induction evs with
  | nil =>
      intro s hs s' h
      rw [List.foldl_nil, Option.some.injEq] at h
      rw [← h]
      exact hs
  | cons e evs ih =>
      intro s hs s' h
      rw [List.foldl_cons] at h
      rcases hw : wheelEvent s e.mx e.my e.dy with _ | s₁
      · rw [show wheelStep (some s) e = none from hw, foldl_wheel_none] at h
        exact absurd h (by simp)
      · rw [show wheelStep (some s) e = some s₁ from hw] at h
        exact ih s₁ (wheelEvent_floor s s₁ e.mx e.my e.dy hs hw) s' h

/-- C4: starting from the initial zoom `1.0`, every surviving state
reachable by any finite sequence of scroll events keeps
`zoom ≥ 0.7`; moreover a scroll event whose resulting zoom
(`zoom * 1.2` on scroll-up, `zoom / 1.2` on scroll-down) would fall
below `0.7` only rebinds `zoom_new` and changes neither zoom nor pan. -/
theorem c4_zoom_floor :
    (∀ (evs : List ScrollEv) (s : WheelState),
      runWheel evs = some s → zoomFloor ≤ s.zoom) ∧
    (∀ (s : WheelState) (mx my : ℚ) (dy : ℤ), 0 < dy →
      s.zoom * zoomRate < zoomFloor →
      wheelEvent s mx my dy = some { s with zoomNew := some (s.zoom * zoomRate) }) ∧
    (∀ (s : WheelState) (mx my : ℚ) (dy : ℤ), dy < 0 →
      s.zoom / zoomRate < zoomFloor →
      wheelEvent s mx my dy = some { s with zoomNew := some (s.zoom / zoomRate) }) := by
  refine ⟨?_, ?_, ?_⟩
  · intro evs s h
    exact runWheel_from_floor evs wheelInit (by norm_num [wheelInit, zoomFloor]) s h
  · intro s mx my dy hdy hlt
    simp only [wheelEvent, if_pos hdy, Option.map_some', if_pos hlt]
  · intro s mx my dy hdy hlt
    simp only [wheelEvent, if_neg (show ¬ 0 < dy by omega), if_pos hdy,
      Option.map_some', if_pos hlt]

/-- Witness for C4: the empty event queue, a rejected scroll-up from
zoom 1/2, and a rejected scroll-down from zoom 4/5. -/
theorem c4_zoom_floor_witness :
    zoomFloor ≤ wheelInit.zoom ∧
    wheelEvent ⟨1/2, 3, 4, none⟩ 0 0 1 =
      some { zoom := 1/2, panx := 3, pany := 4, zoomNew := some (1/2 * zoomRate) } ∧
    wheelEvent ⟨4/5, 3, 4, none⟩ 0 0 (-1) =
      some { zoom := 4/5, panx := 3, pany := 4, zoomNew := some (4/5 / zoomRate) } :=
  ⟨c4_zoom_floor.1 [] wheelInit rfl,
   c4_zoom_floor.2.1 ⟨1/2, 3, 4, none⟩ 0 0 1 (by norm_num)
     (by norm_num [zoomRate, zoomFloor]),
   c4_zoom_floor.2.2 ⟨4/5, 3, 4, none⟩ 0 0 (-1) (by norm_num)
     (by norm_num [zoomRate, zoomFloor])⟩

/-- C9 concerns totality of event handling.  This evaluates the wheel
handler at the failing input: the very first wheel event carrying a
zero vertical delta (e.g. a horizontal scroll) reads the never-assigned
Python global `zoom_new` and dies with `NameError` instead of being a
silent no-op. -/
theorem c9_zero_delta_first_wheel_faults :
    wheelEvent wheelInit (1/2) (1/2) 0 = none := rfl

/-! #### Screen-to-world transform of `draw` and pointer invariance: C7 -/

/-- The x (equally y) component of the screen-to-world map of `draw`:
`x = pos_x + (c - res[0] / 2 + 0.5) / zoom`, for a (possibly
fractional) pixel coordinate `px`. -/
def screenToWorldX (panx zoom px : ℚ) : ℚ :=
  panx + (px - 1024 / 2 + 1 / 2) / zoom

/-- C7: for any wheel event that survives (in particular every accepted
zoom change, `dy ≠ 0` and resulting zoom at or above the floor), the pan
adjustment `pan += (mouse - 0.5) * res * (1/zoom - 1/zoom_new)` keeps
the world point under the pointer fixed: `screenToWorld` at the
pointer's position — pixel-index coordinate `1024 * m - 1/2`, since
pixel index `c` samples the point `c + 1/2` — is unchanged, in exact
rational arithmetic.  (For a rejected event pan and zoom are untouched,
so the map is unchanged everywhere; the `dy` hypothesis only mirrors
the claim's scope.) -/
theorem c7_zoom_keeps_pointer_fixed (s s' : WheelState) (mx my : ℚ) (dy : ℤ)
    (hz : zoomFloor ≤ s.zoom) (_hdy : dy ≠ 0)
    (h : wheelEvent s mx my dy = some s') :
    screenToWorldX s'.panx s'.zoom (1024 * mx - 1 / 2) =
      screenToWorldX s.panx s.zoom (1024 * mx - 1 / 2) ∧
    screenToWorldX s'.pany s'.zoom (1024 * my - 1 / 2) =
      screenToWorldX s.pany s.zoom (1024 * my - 1 / 2) := by
  have hz0 : s.zoom ≠ 0 := by
    have : (0 : ℚ) < 7 / 10 := by norm_num
    rw [zoomFloor] at hz
    exact ne_of_gt (lt_of_lt_of_le this hz)
  have key : ∀ pan m zn : ℚ, zn ≠ 0 →
      screenToWorldX (pan + (m - 1 / 2) * 1024 * (1 / s.zoom - 1 / zn)) zn
          (1024 * m - 1 / 2) =
        screenToWorldX pan s.zoom (1024 * m - 1 / 2) := by
    intro pan m zn hzn
    rw [screenToWorldX, screenToWorldX]
    field_simp
    ring
  rcases hzn : (if 0 < dy then some (s.zoom * zoomRate)
      else if dy < 0 then some (s.zoom / zoomRate) else s.zoomNew) with _ | zn
  · simp only [wheelEvent] at h
    rw [hzn, Option.map_none'] at h
    exact absurd h (by simp)
  · simp only [wheelEvent] at h
    rw [hzn, Option.map_some', Option.some.injEq] at h
    by_cases hlt : zn < zoomFloor
    · rw [if_pos hlt] at h
      rw [← h]
      exact ⟨rfl, rfl⟩
    · rw [if_neg hlt] at h
      have hzn0 : zn ≠ 0 := by
        have : (0 : ℚ) < 7 / 10 := by norm_num
        rw [zoomFloor] at hlt
        exact ne_of_gt (lt_of_lt_of_le this (le_of_not_lt hlt))
      rw [← h]
      exact ⟨key s.panx mx zn hzn0, key s.pany my zn hzn0⟩

/-- Concrete accepted zoom-in for the C7 witness: from the initial
state, cursor at (3/4, 1/4), scroll up. -/
def wheelAfterUp : WheelState :=
  { zoom := 1 * zoomRate
    panx := 0 + (3 / 4 - 1 / 2) * 1024 * (1 / 1 - 1 / (1 * zoomRate))
    pany := 0 + (1 / 4 - 1 / 2) * 1024 * (1 / 1 - 1 / (1 * zoomRate))
    zoomNew := some (1 * zoomRate) }

/-- Witness for C7 at a concrete accepted scroll-up. -/
theorem c7_zoom_keeps_pointer_fixed_witness :
    screenToWorldX wheelAfterUp.panx wheelAfterUp.zoom (1024 * (3 / 4) - 1 / 2) =
      screenToWorldX wheelInit.panx wheelInit.zoom (1024 * (3 / 4) - 1 / 2) ∧
    screenToWorldX wheelAfterUp.pany wheelAfterUp.zoom (1024 * (1 / 4) - 1 / 2) =
      screenToWorldX wheelInit.pany wheelInit.zoom (1024 * (1 / 4) - 1 / 2) :=
  c7_zoom_keeps_pointer_fixed wheelInit wheelAfterUp (3 / 4) (1 / 4) 1
    (by norm_num [wheelInit, zoomFloor]) (by norm_num)
    (by simp only [wheelEvent, wheelInit, if_pos (show (0 : ℤ) < 1 by norm_num),
          Option.map_some', if_neg (show ¬ (1 : ℚ) * zoomRate < zoomFloor by
            norm_num [zoomRate, zoomFloor])]
        rfl)

/-! #### The renderer: `query_state` and `draw` (C5) -/

/-- `query_state(x, y)`: continuous grid coordinates, truncation to cell
indices, the in-range test, the border test on the fractional offsets,
and the cell lookup in the current buffer.  Returns
`(is_border, grid_state)`; both are `0`/`false` out of range. -/
def queryState (g : Grid) (x y : ℚ) : Bool × Nat :=
  let grid_x := x / gridSize + (gridNum : ℚ) / 2
  let grid_y := y / gridSize + (gridNum : ℚ) / 2
  let i := truncQ grid_x
  let j := truncQ grid_y
  if (gridNum : ℚ) ≤ grid_x ∨ grid_x < 0 ∨ (gridNum : ℚ) ≤ grid_y ∨ grid_y < 0 then
    (false, 0)
  else
    (decide (grid_x - i < borderThickness ∨ 1 - borderThickness < grid_x - i ∨
       grid_y - j < borderThickness ∨ 1 - borderThickness < grid_y - j),
     g i.toNat j.toNat)

/-- The border color `(0xcf, 0xcf, 0xcf)`. -/
def borderColor : Nat × Nat × Nat := (0xcf, 0xcf, 0xcf)

/-- The alive-cell color `(0x7f, 0xff, 0x7f)`. -/
def aliveColor : Nat × Nat × Nat := (0x7f, 0xff, 0x7f)

/-- The dead/background color `(0x3f, 0x3f, 0x3f)`. -/
def deadColor : Nat × Nat × Nat := (0x3f, 0x3f, 0x3f)

/-- The color the `draw` kernel writes to pixel `(c, r)`: the world
point is `x = pos_x + (c - res[0]/2 + 0.5) / zoom` (and likewise `y`),
then border color if `is_border`, else the alive color if `grid_state`
is non-zero, else the dead color. -/
def drawPixel (g : Grid) (posx posy zoom : ℚ) (c r : Nat) : Nat × Nat × Nat :=
  let x := screenToWorldX posx zoom (c : ℚ)
  let y := screenToWorldX posy zoom (r : ℚ)
  let q := queryState g x y
  if q.1 then borderColor
  else if q.2 ≠ 0 then aliveColor
  else deadColor

/-- `worldToGrid` as the spec states it: `gx = wx / cellSize + N/2`. -/
def worldToGridX (wx : ℚ) : ℚ :=
  wx / gridSize + (gridNum : ℚ) / 2

/-- `sample` as the spec states it: continuous grid coordinates are
floored to integer cell indices; `inBounds` is false when the indices
fall outside `[0, N)`; `isBorder` holds in bounds when a fractional
offset lies within the thickness band of an edge.  Returns
`(isBorder, cellRow, cellCol, inBounds)`. -/
def specSample (wx wy : ℚ) : Bool × ℤ × ℤ × Bool :=
  let gx := worldToGridX wx
  let gy := worldToGridX wy
  let row := ⌊gx⌋
  let col := ⌊gy⌋
  let inB : Bool := decide (0 ≤ row ∧ row < (gridNum : ℤ) ∧
    0 ≤ col ∧ col < (gridNum : ℤ))
  let isB : Bool := inB && decide (Int.fract gx < borderThickness ∨
    1 - borderThickness < Int.fract gx ∨ Int.fract gy < borderThickness ∨
    1 - borderThickness < Int.fract gy)
  (isB, row, col, inB)

/-- The renderer's color choice as the spec states it: border color when
`sample` reports `isBorder`; otherwise the alive color when the pixel is
in bounds and its cell is live; otherwise the dead color. -/
def specRender (g : Grid) (panx pany zoom : ℚ) (c r : Nat) : Nat × Nat × Nat :=
  let s := specSample (screenToWorldX panx zoom (c : ℚ))
    (screenToWorldX pany zoom (r : ℚ))
  if s.1 then borderColor
  else if s.2.2.2 ∧ g s.2.1.toNat s.2.2.1.toNat ≠ 0 then aliveColor
  else deadColor

lemma floor_bounds_iff (gx : ℚ) :
    (0 ≤ ⌊gx⌋ ∧ ⌊gx⌋ < (gridNum : ℤ)) ↔ (0 ≤ gx ∧ gx < (gridNum : ℚ)) := by
  constructor
  · rintro ⟨h1, h2⟩
    refine ⟨le_trans (by exact_mod_cast h1) (Int.floor_le gx), ?_⟩
    have := Int.floor_lt.mp h2
    exact_mod_cast this
  · rintro ⟨h1, h2⟩
    exact ⟨Int.le_floor.mpr (by exact_mod_cast h1), Int.floor_lt.mpr (by exact_mod_cast h2)⟩

lemma query_sample_core (g : Grid) (gx gy : ℚ) :
    (if (gridNum : ℚ) ≤ gx ∨ gx < 0 ∨ (gridNum : ℚ) ≤ gy ∨ gy < 0 then
       ((false : Bool), (0 : Nat))
     else
       (decide (gx - (truncQ gx : ℚ) < borderThickness ∨
          1 - borderThickness < gx - (truncQ gx : ℚ) ∨
          gy - (truncQ gy : ℚ) < borderThickness ∨
          1 - borderThickness < gy - (truncQ gy : ℚ)),
        g (truncQ gx).toNat (truncQ gy).toNat)) =
    (decide (0 ≤ ⌊gx⌋ ∧ ⌊gx⌋ < (gridNum : ℤ) ∧ 0 ≤ ⌊gy⌋ ∧
        ⌊gy⌋ < (gridNum : ℤ)) &&
      decide (Int.fract gx < borderThickness ∨
        1 - borderThickness < Int.fract gx ∨
        Int.fract gy < borderThickness ∨
        1 - borderThickness < Int.fract gy),
     if decide (0 ≤ ⌊gx⌋ ∧ ⌊gx⌋ < (gridNum : ℤ) ∧ 0 ≤ ⌊gy⌋ ∧
         ⌊gy⌋ < (gridNum : ℤ)) = true
     then g ⌊gx⌋.toNat ⌊gy⌋.toNat else 0) := by
  by_cases hin : 0 ≤ gx ∧ gx < (gridNum : ℚ) ∧ 0 ≤ gy ∧ gy < (gridNum : ℚ)
  · obtain ⟨hx0, hx1, hy0, hy1⟩ := hin
    have hbx := (floor_bounds_iff gx).mpr ⟨hx0, hx1⟩
    have hby := (floor_bounds_iff gy).mpr ⟨hy0, hy1⟩
    have hinB : decide (0 ≤ ⌊gx⌋ ∧ ⌊gx⌋ < (gridNum : ℤ) ∧
        0 ≤ ⌊gy⌋ ∧ ⌊gy⌋ < (gridNum : ℤ)) = true := by
      simp only [decide_eq_true_eq]
      exact ⟨hbx.1, hbx.2, hby.1, hby.2⟩
    rw [if_neg (show ¬((gridNum : ℚ) ≤ gx ∨ gx < 0 ∨ (gridNum : ℚ) ≤ gy ∨ gy < 0) by
      push_neg
      exact ⟨hx1, hx0, hy1, hy0⟩)]
    rw [hinB]
    rw [truncQ_eq_floor gx hx0, truncQ_eq_floor gy hy0]
    rw [Int.self_sub_floor gx, Int.self_sub_floor gy]
    simp
  · have hinB : decide (0 ≤ ⌊gx⌋ ∧ ⌊gx⌋ < (gridNum : ℤ) ∧
        0 ≤ ⌊gy⌋ ∧ ⌊gy⌋ < (gridNum : ℤ)) = false := by
      simp only [decide_eq_false_iff_not]
      rintro ⟨h1, h2, h3, h4⟩
      exact hin ⟨((floor_bounds_iff gx).mp ⟨h1, h2⟩).1,
        ((floor_bounds_iff gx).mp ⟨h1, h2⟩).2,
        ((floor_bounds_iff gy).mp ⟨h3, h4⟩).1,
        ((floor_bounds_iff gy).mp ⟨h3, h4⟩).2⟩
    rw [if_pos (show (gridNum : ℚ) ≤ gx ∨ gx < 0 ∨ (gridNum : ℚ) ≤ gy ∨ gy < 0 by
      by_contra hc
      push_neg at hc
      exact hin ⟨hc.2.1, hc.1, hc.2.2.2, hc.2.2.1⟩)]
    rw [hinB]
    simp

lemma queryState_eq_sample (g : Grid) (x y : ℚ) :
    queryState g x y =
      ((specSample x y).1,
       if (specSample x y).2.2.2 then
         g (specSample x y).2.1.toNat (specSample x y).2.2.1.toNat
       else 0) :=
  query_sample_core g (x / gridSize + (gridNum : ℚ) / 2)
    (y / gridSize + (gridNum : ℚ) / 2)

/-- C5: every output pixel of `draw` gets its color by the priority the
spec states — border color when `sample` reports `isBorder`, otherwise
the alive color when the cell indices are in `[0, N)` and the cell is
live in the current buffer, otherwise the dead/background color — and
in particular every pixel whose continuous grid coordinates fall
outside `[0, N)` gets the dead color, never border or alive. -/
theorem c5_draw_color_priority (g : Grid) (panx pany zoom : ℚ) (c r : Nat) :
    drawPixel g panx pany zoom c r = specRender g panx pany zoom c r ∧
    (¬(0 ≤ worldToGridX (screenToWorldX panx zoom (c : ℚ)) ∧
        worldToGridX (screenToWorldX panx zoom (c : ℚ)) < (gridNum : ℚ) ∧
        0 ≤ worldToGridX (screenToWorldX pany zoom (r : ℚ)) ∧
        worldToGridX (screenToWorldX pany zoom (r : ℚ)) < (gridNum : ℚ)) →
      drawPixel g panx pany zoom c r = deadColor) := by
  have hq := queryState_eq_sample g (screenToWorldX panx zoom (c : ℚ))
    (screenToWorldX pany zoom (r : ℚ))
  have hmain : drawPixel g panx pany zoom c r = specRender g panx pany zoom c r := by
    simp only [drawPixel, specRender]
    rw [hq]
    cases hsb : (specSample (screenToWorldX panx zoom (c : ℚ))
        (screenToWorldX pany zoom (r : ℚ))).1 with
    | true => simp [hsb]
    | false =>
        cases hib : (specSample (screenToWorldX panx zoom (c : ℚ))
            (screenToWorldX pany zoom (r : ℚ))).2.2.2 with
        | true => simp [hsb, hib]
        | false => simp [hsb, hib]
  refine ⟨hmain, ?_⟩
  intro hout
  rw [hmain, specRender]
  have hinB : decide (0 ≤ (specSample (screenToWorldX panx zoom (c : ℚ))
      (screenToWorldX pany zoom (r : ℚ))).2.1 ∧
      (specSample (screenToWorldX panx zoom (c : ℚ))
        (screenToWorldX pany zoom (r : ℚ))).2.1 < (gridNum : ℤ) ∧
      0 ≤ (specSample (screenToWorldX panx zoom (c : ℚ))
        (screenToWorldX pany zoom (r : ℚ))).2.2.1 ∧
      (specSample (screenToWorldX panx zoom (c : ℚ))
        (screenToWorldX pany zoom (r : ℚ))).2.2.1 < (gridNum : ℤ)) = false := by
    simp only [specSample, decide_eq_false_iff_not]
    rintro ⟨h1, h2, h3, h4⟩
    exact hout ⟨((floor_bounds_iff _).mp ⟨h1, h2⟩).1,
      ((floor_bounds_iff _).mp ⟨h1, h2⟩).2,
      ((floor_bounds_iff _).mp ⟨h3, h4⟩).1,
      ((floor_bounds_iff _).mp ⟨h3, h4⟩).2⟩
  have hsb : (specSample (screenToWorldX panx zoom (c : ℚ))
      (screenToWorldX pany zoom (r : ℚ))).1 = false := by
    simp only [specSample] at hinB ⊢
    rw [hinB]
    exact Bool.false_and _
  have hib : (specSample (screenToWorldX panx zoom (c : ℚ))
      (screenToWorldX pany zoom (r : ℚ))).2.2.2 = false := by
    simp only [specSample] at hinB ⊢
    exact hinB
  simp [hsb, hib]

/-- Witness for C5: with the view panned far off the grid, a pixel
renders as the dead/background color even over an all-live grid. -/
theorem c5_draw_color_priority_witness :
    drawPixel (fun _ _ => 1) 10000 0 1 0 0 = deadColor :=
  (c5_draw_color_priority (fun _ _ => 1) 10000 0 1 0 0).2 (by
    intro h
    have h2 := h.2.1
    norm_num [worldToGridX, screenToWorldX, gridSize, gridNum] at h2)

/-! #### The right-mouse-button branch of the main loop: C6, C8, C10 -/

/-- The whole mutable state the RMB branch can see: the automaton state,
the view globals `center_x`, `center_y`, `zoom`, and the run state
(`running = true` models `RunningState.RUNNING`). -/
structure AppState where
  life : LifeState
  panx : ℚ
  pany : ℚ
  zoom : ℚ
  running : Bool

/-- The continuous grid x-coordinate the RMB branch computes:
`grid_x = (center_x + (mouse_x - 0.5) * res[0] / zoom) / grid_size + grid_num / 2`. -/
def clickGridX (a : AppState) (mx : ℚ) : ℚ :=
  (a.panx + (mx - 1 / 2) * 1024 / a.zoom) / gridSize + (gridNum : ℚ) / 2

/-- The continuous grid y-coordinate of the RMB branch. -/
def clickGridY (a : AppState) (my : ℚ) : ℚ :=
  (a.pany + (my - 1 / 2) * 1024 / a.zoom) / gridSize + (gridNum : ℚ) / 2

/-- The RMB branch's out-of-range test
`grid_x >= grid_num or grid_x < 0 or grid_y >= grid_num or grid_y < 0`. -/
def clickOOB (a : AppState) (mx my : ℚ) : Prop :=
  (gridNum : ℚ) ≤ clickGridX a mx ∨ clickGridX a mx < 0 ∨
    (gridNum : ℚ) ≤ clickGridY a my ∨ clickGridY a my < 0

instance (a : AppState) (mx my : ℚ) : Decidable (clickOOB a mx my) := by
  unfold clickOOB
  infer_instance

/-- The RMB (secondary click) branch: while RUNNING it is skipped
(`continue`); otherwise the cursor is mapped to continuous grid
coordinates, out-of-range clicks do nothing, and in range the single
cell `state[state_idx, int(grid_x), int(grid_y)]` is xor-flipped in the
current buffer. -/
def rmbClick (a : AppState) (mx my : ℚ) : AppState :=
  if a.running then a
  else if clickOOB a mx my then a
  else
    { a with life :=
        { state := writeCell a.life.state a.life.idx
            (truncQ (clickGridX a mx)).toNat (truncQ (clickGridY a my)).toNat
            (Nat.xor (a.life.state a.life.idx (truncQ (clickGridX a mx)).toNat
              (truncQ (clickGridY a my)).toNat) 1)
          idx := a.life.idx } }

lemma rmbClick_running (a : AppState) (mx my : ℚ) (h : a.running = true) :
    rmbClick a mx my = a := by
  rw [rmbClick, if_pos h]

lemma rmbClick_oob (a : AppState) (mx my : ℚ) (h : clickOOB a mx my) :
    rmbClick a mx my = a := by
  rw [rmbClick]
  by_cases hr : a.running = true
  · rw [if_pos hr]
  · rw [if_neg hr, if_pos h]

lemma rmbClick_toggle (a : AppState) (mx my : ℚ) (hp : a.running = false)
    (hin : ¬ clickOOB a mx my) :
    rmbClick a mx my =
      { a with life :=
          { state := writeCell a.life.state a.life.idx
              (truncQ (clickGridX a mx)).toNat (truncQ (clickGridY a my)).toNat
              (Nat.xor (a.life.state a.life.idx (truncQ (clickGridX a mx)).toNat
                (truncQ (clickGridY a my)).toNat) 1)
            idx := a.life.idx } } := by
  rw [rmbClick, if_neg (by rw [hp]; simp), if_neg hin]

/-- C6: a secondary click while Paused that maps in range xor-flips
exactly the clicked cell of the current buffer and leaves every other
cell of both buffers, the buffer index, pan, zoom and the run state
unchanged; a secondary click while Running, or one mapping out of
range, changes no state at all. -/
theorem c6_rmb_toggle_isolated (a : AppState) (mx my : ℚ) :
    (a.running = false → ¬ clickOOB a mx my →
      ((rmbClick a mx my).life.state a.life.idx
          (truncQ (clickGridX a mx)).toNat (truncQ (clickGridY a my)).toNat =
        Nat.xor (a.life.state a.life.idx (truncQ (clickGridX a mx)).toNat
          (truncQ (clickGridY a my)).toNat) 1 ∧
       (∀ b i j : Nat, ¬(b = a.life.idx ∧ i = (truncQ (clickGridX a mx)).toNat ∧
          j = (truncQ (clickGridY a my)).toNat) →
         (rmbClick a mx my).life.state b i j = a.life.state b i j) ∧
       (rmbClick a mx my).life.idx = a.life.idx ∧
       (rmbClick a mx my).panx = a.panx ∧
       (rmbClick a mx my).pany = a.pany ∧
       (rmbClick a mx my).zoom = a.zoom ∧
       (rmbClick a mx my).running = a.running)) ∧
    (a.running = true → rmbClick a mx my = a) ∧
    (clickOOB a mx my → rmbClick a mx my = a) := by
  refine ⟨?_, fun h => rmbClick_running a mx my h, fun h => rmbClick_oob a mx my h⟩
  intro hp hin
  rw [rmbClick_toggle a mx my hp hin]
  refine ⟨?_, ?_, rfl, rfl, rfl, rfl, hp.symm ▸ rfl⟩
  · show writeCell a.life.state a.life.idx _ _ _ a.life.idx _ _ = _
    rw [writeCell, if_pos ⟨rfl, rfl, rfl⟩]
  · intro b i j hb
    show writeCell a.life.state a.life.idx _ _ _ b i j = _
    rw [writeCell, if_neg hb]

/-- A concrete paused state over the seeded grid for the C6/C10
witnesses: cursor (1/2, 1/2) maps to cell (50, 50). -/
def pausedApp : AppState :=
  { life := seedState, panx := 0, pany := 0, zoom := 1, running := false }

/-- The same state but running. -/
def runningApp : AppState :=
  { life := seedState, panx := 0, pany := 0, zoom := 1, running := true }

lemma pausedApp_click_in : ¬ clickOOB pausedApp (1/2) (1/2) := by
  norm_num [clickOOB, clickGridX, clickGridY, pausedApp, gridSize, gridNum]

/-- Witness for C6: the toggle fires at the clicked cell of the paused
state, and a click on the running state is a no-op. -/
theorem c6_rmb_toggle_isolated_witness :
    (rmbClick pausedApp (1/2) (1/2)).life.state pausedApp.life.idx
        (truncQ (clickGridX pausedApp (1/2))).toNat
        (truncQ (clickGridY pausedApp (1/2))).toNat =
      Nat.xor (pausedApp.life.state pausedApp.life.idx
        (truncQ (clickGridX pausedApp (1/2))).toNat
        (truncQ (clickGridY pausedApp (1/2))).toNat) 1 ∧
    rmbClick runningApp (1/2) (1/2) = runningApp :=
  ⟨((c6_rmb_toggle_isolated pausedApp (1/2) (1/2)).1 rfl pausedApp_click_in).1,
   (c6_rmb_toggle_isolated runningApp (1/2) (1/2)).2.1 rfl⟩

lemma xor_one_twice (v : Nat) : Nat.xor (Nat.xor v 1) 1 = v := by
  show v ^^^ 1 ^^^ 1 = v
  exact Nat.xor_cancel_right 1 v

lemma writeCell_toggle_twice (f : Nat → Nat → Nat → Nat) (bb i0 j0 : Nat) :
    writeCell (writeCell f bb i0 j0 (Nat.xor (f bb i0 j0) 1)) bb i0 j0
      (Nat.xor (writeCell f bb i0 j0 (Nat.xor (f bb i0 j0) 1) bb i0 j0) 1) = f := by
  funext b' i' j'
  by_cases hk : b' = bb ∧ i' = i0 ∧ j' = j0
  · obtain ⟨e1, e2, e3⟩ := hk
    subst e1; subst e2; subst e3
    simp [writeCell, xor_one_twice]
  · simp only [writeCell]
    rw [if_neg hk, if_neg hk]

/-- C10: while Paused, two consecutive secondary clicks at the same
pointer position mapping to the same in-range cell restore the whole
state exactly — the single-cell xor-flip is an involution. -/
theorem c10_double_toggle_id (a : AppState) (mx my : ℚ)
    (hp : a.running = false) (hin : ¬ clickOOB a mx my) :
    rmbClick (rmbClick a mx my) mx my = a := by
  have h1 := rmbClick_toggle a mx my hp hin
  have hrun1 : (rmbClick a mx my).running = false := by
    rw [h1]
    exact hp
  have hgx1 : clickGridX (rmbClick a mx my) mx = clickGridX a mx := by
    rw [h1]
    rfl
  have hgy1 : clickGridY (rmbClick a mx my) my = clickGridY a my := by
    rw [h1]
    rfl
  have hin1 : ¬ clickOOB (rmbClick a mx my) mx my := by
    simp only [clickOOB, hgx1, hgy1]
    exact hin
  have hidx1 : (rmbClick a mx my).life.idx = a.life.idx := by
    rw [h1]
  have hstate1 : (rmbClick a mx my).life.state =
      writeCell a.life.state a.life.idx (truncQ (clickGridX a mx)).toNat
        (truncQ (clickGridY a my)).toNat
        (Nat.xor (a.life.state a.life.idx (truncQ (clickGridX a mx)).toNat
          (truncQ (clickGridY a my)).toNat) 1) := by
    rw [h1]
  have hpanx1 : (rmbClick a mx my).panx = a.panx := by rw [h1]
  have hpany1 : (rmbClick a mx my).pany = a.pany := by rw [h1]
  have hzoom1 : (rmbClick a mx my).zoom = a.zoom := by rw [h1]
  have hrunning1 : (rmbClick a mx my).running = a.running := by rw [h1]
  have h2 := rmbClick_toggle (rmbClick a mx my) mx my hrun1 hin1
  rw [h2, hgx1, hgy1, hidx1, hstate1, hpanx1, hpany1, hzoom1, hrunning1,
    writeCell_toggle_twice]

/-- Witness for C10 at the seeded paused state and cursor (1/2, 1/2). -/
theorem c10_double_toggle_id_witness :
    rmbClick (rmbClick pausedApp (1/2) (1/2)) (1/2) (1/2) = pausedApp :=
  c10_double_toggle_id pausedApp (1/2) (1/2) rfl pausedApp_click_in

/-! #### C8: the cell a secondary click toggles -/

/-- C8 (amended): the cell toggled by a paused in-range secondary click
is obtained by mapping the cursor's continuous screen coordinate
`1024 * m` through `wx = pan + (1024*m - size/2) / zoom` — which equals
`screenToWorld` evaluated at pixel-index coordinate `1024 * m - 1/2`,
not at `1024 * m` — then `worldToGrid` and truncation.  Because the
renderer samples each pixel at its centre, this cell can differ from
the cell the renderer displays at the pixel containing the pointer. -/
theorem c8_click_cell_amended (a : AppState) (mx my : ℚ)
    (hp : a.running = false) (hin : ¬ clickOOB a mx my) :
    clickGridX a mx =
      worldToGridX (screenToWorldX a.panx a.zoom (1024 * mx - 1 / 2)) ∧
    clickGridY a my =
      worldToGridX (screenToWorldX a.pany a.zoom (1024 * my - 1 / 2)) ∧
    (rmbClick a mx my).life.state a.life.idx
        (truncQ (clickGridX a mx)).toNat (truncQ (clickGridY a my)).toNat =
      Nat.xor (a.life.state a.life.idx (truncQ (clickGridX a mx)).toNat
        (truncQ (clickGridY a my)).toNat) 1 := by
  refine ⟨?_, ?_, ?_⟩
  · simp only [clickGridX, worldToGridX, screenToWorldX]
    ring
  · simp only [clickGridY, worldToGridX, screenToWorldX]
    ring
  · rw [rmbClick_toggle a mx my hp hin]
    show writeCell a.life.state a.life.idx _ _ _ a.life.idx _ _ = _
    rw [writeCell, if_pos ⟨rfl, rfl, rfl⟩]

/-- Witness for C8 (amended) at the seeded paused state. -/
theorem c8_click_cell_amended_witness :
    clickGridX pausedApp (1/2) =
      worldToGridX (screenToWorldX pausedApp.panx pausedApp.zoom
        (1024 * (1/2) - 1 / 2)) ∧
    clickGridY pausedApp (1/2) =
      worldToGridX (screenToWorldX pausedApp.pany pausedApp.zoom
        (1024 * (1/2) - 1 / 2)) ∧
    (rmbClick pausedApp (1/2) (1/2)).life.state pausedApp.life.idx
        (truncQ (clickGridX pausedApp (1/2))).toNat
        (truncQ (clickGridY pausedApp (1/2))).toNat =
      Nat.xor (pausedApp.life.state pausedApp.life.idx
        (truncQ (clickGridX pausedApp (1/2))).toNat
        (truncQ (clickGridY pausedApp (1/2))).toNat) 1 :=
  c8_click_cell_amended pausedApp (1/2) (1/2) rfl pausedApp_click_in

/-- The all-dead paused state with `center_x = -1/4` used to refute C8
as stated. -/
def cexApp : AppState :=
  { life := { state := fun _ _ _ => 0, idx := 0 }
    panx := -1/4, pany := 0, zoom := 1, running := false }

/-- A cursor x-position whose continuous pixel coordinate is
`1024 * cexMx = 512.01`, just inside pixel 512. -/
def cexMx : ℚ := 51201 / 102400

lemma cexApp_click_in : ¬ clickOOB cexApp cexMx (1/2) := by
  norm_num [clickOOB, clickGridX, clickGridY, cexApp, cexMx, gridSize, gridNum]

lemma cex_gx : truncQ (clickGridX cexApp cexMx) = 49 :=
  truncQ_eq _ 49
    (by norm_num [clickGridX, cexApp, cexMx, gridSize, gridNum])
    (by norm_num [clickGridX, cexApp, cexMx, gridSize, gridNum])
    (by norm_num [clickGridX, cexApp, cexMx, gridSize, gridNum])

lemma cex_gy : truncQ (clickGridY cexApp (1/2)) = 50 :=
  truncQ_eq _ 50
    (by norm_num [clickGridY, cexApp, gridSize, gridNum])
    (by norm_num [clickGridY, cexApp, gridSize, gridNum])
    (by norm_num [clickGridY, cexApp, gridSize, gridNum])

/-- Counterexample to C8 as stated: with pan `(-1/4, 0)`, zoom 1 and
the cursor at continuous pixel coordinate `(512.01, 512)`,
`screenToWorld` at the pointer's pixel position followed by
`worldToGrid` and truncation names cell row 50 — and the renderer's
cell at pixel 512, the pixel containing the pointer, is also row 50 —
yet the click toggles row 49: the code maps the cursor without the
renderer's half-pixel centre offset, so the toggled cell is not the
cell `screenToWorld` (as the claim words it) or the renderer designate
under the pointer. -/
theorem c8_click_cell_counterexample :
    truncQ (worldToGridX (screenToWorldX cexApp.panx cexApp.zoom
        (1024 * cexMx))) = 50 ∧
    ⌊(1024 : ℚ) * cexMx⌋ = 512 ∧
    truncQ (worldToGridX (screenToWorldX cexApp.panx cexApp.zoom
        ((512 : ℕ) : ℚ))) = 50 ∧
    (rmbClick cexApp cexMx (1/2)).life.state 0 49 50 = 1 ∧
    (rmbClick cexApp cexMx (1/2)).life.state 0 50 50 = 0 := by
  refine ⟨?_, ?_, ?_, ?_, ?_⟩
  · exact truncQ_eq _ 50
      (by norm_num [worldToGridX, screenToWorldX, cexApp, cexMx, gridSize, gridNum])
      (by norm_num [worldToGridX, screenToWorldX, cexApp, cexMx, gridSize, gridNum])
      (by norm_num [worldToGridX, screenToWorldX, cexApp, cexMx, gridSize, gridNum])
  · rw [Int.floor_eq_iff]
    constructor
    · norm_num [cexMx]
    · norm_num [cexMx]
  · exact truncQ_eq _ 50
      (by norm_num [worldToGridX, screenToWorldX, cexApp, gridSize, gridNum])
      (by norm_num [worldToGridX, screenToWorldX, cexApp, gridSize, gridNum])
      (by norm_num [worldToGridX, screenToWorldX, cexApp, gridSize, gridNum])
  · rw [rmbClick_toggle cexApp cexMx (1/2) rfl cexApp_click_in, cex_gx, cex_gy]
    rfl
  · rw [rmbClick_toggle cexApp cexMx (1/2) rfl cexApp_click_in, cex_gx, cex_gy]
    rfl

end GameOfLife
